import Mathlib

/-!
Shallow embedding of curved_path_calculation.py: a turn-rate-limited
curved-path generator between two geographic points.  The geodesic
library (geographiclib) is an external collaborator, modelled as an
abstract oracle supplying the inverse and direct geodesic operations.
Coordinates, headings and distances are rationals; Python float
operators are modelled exactly (true modulus with the sign of the
divisor, truncation toward zero for int conversion).
-/

/-- Result record of the oracle inverse operation: geodesic distance s12
and initial bearing azi1, the two fields the program reads. -/
structure InvResult where
  s12 : ℚ
  azi1 : ℚ

/-- Geodesic oracle: Inverse gives distance and bearing between two points;
Direct gives the destination reached from a point along a heading for a
distance. -/
structure Geodesic where
  Inverse : ℚ → ℚ → ℚ → ℚ → InvResult
  Direct : ℚ → ℚ → ℚ → ℚ → ℚ × ℚ

/-- Module constant: latitude of point A (line 6). -/
def LAT_A : ℚ := 49.64

/-- Module constant: longitude of point A (line 6). -/
def LON_A : ℚ := 6.14

/-- Module constant: latitude of point B (line 7). -/
def LAT_B : ℚ := 50.02

/-- Module constant: longitude of point B (line 7). -/
def LON_B : ℚ := 4.93

/-- Module constant: maximum heading change per step in degrees (line 8). -/
def MAX_TURN_RATE : ℚ := 3

/-- Module constant: nominal interval between points in meters (line 9). -/
def POINT_INTERVAL_METERS : ℚ := 300

/-- Python percent operator on rationals: the result has the sign of the
divisor, a - b * floor (a / b). -/
def pymod (a b : ℚ) : ℚ := a - b * ⌊a / b⌋

/-- Python int conversion applied to a real quantity: truncation toward
zero. -/
def pyInt (q : ℚ) : ℤ := if 0 ≤ q then ⌊q⌋ else -⌊-q⌋

/-- numpy sign on a rational. -/
def npSign (x : ℚ) : ℚ := if 0 < x then 1 else if x < 0 then -1 else 0

/-- Line 27: signed angular difference between the target heading and the
running heading, the Python expression (target - heading + 180) % 360 - 180. -/
def headingChange (target heading : ℚ) : ℚ :=
  pymod (target - heading + 180) 360 - 180

/-- Line 28: turn-rate-limited heading update,
heading + min(MAX_TURN_RATE, abs(change)) * sign(change). -/
def headingUpdate (heading change : ℚ) : ℚ :=
  heading + min MAX_TURN_RATE |change| * npSign change

/-- Line 36: early-termination test of the stepping loop,
abs(heading - end_heading) < 0.1. -/
def earlyStop (heading end_heading : ℚ) : Prop :=
  |heading - end_heading| < 0.1

instance earlyStopDec (heading end_heading : ℚ) : Decidable (earlyStop heading end_heading) :=
  inferInstanceAs (Decidable (_ < _))

/-- Execution trace of the stepping loop of calculate_path_segment: the
accumulated latitude and longitude lists, the running heading, and, for
each executed step, the heading_change computed at line 27 (deltas) and
the heading value passed to the oracle Direct call at line 31 (used). -/
structure SegTrace where
  lats : List ℚ
  lons : List ℚ
  heading : ℚ
  deltas : List ℚ
  used : List ℚ

/-- Body of one pass of the loop of lines 22-37: read the bearing to the
end point from the current position (lats[-1], lons[-1]), steer the
heading toward it by at most MAX_TURN_RATE, advance by step_distance via
the oracle Direct operation and append the new position. -/
def stepTrace (g : Geodesic) (end_lat end_lon step_distance : ℚ) (s : SegTrace) : SegTrace :=
  let target := (g.Inverse s.lats.getLast! s.lons.getLast! end_lat end_lon).azi1
  let change := headingChange target s.heading
  let h2 := headingUpdate s.heading change
  let p := g.Direct s.lats.getLast! s.lons.getLast! h2 step_distance
  ⟨s.lats ++ [p.1], s.lons ++ [p.2], h2, s.deltas ++ [change], s.used ++ [h2]⟩

/-- Loop of lines 22-37: fuel counts the remaining range iterations; the
branch on earlyStop models the break statement of line 37, tested on the
updated heading after the new position has been appended. -/
def segLoop (g : Geodesic) (end_lat end_lon end_heading step_distance : ℚ) :
    ℕ → SegTrace → SegTrace
  | 0, s => s
  | fuel + 1, s =>
    if earlyStop (stepTrace g end_lat end_lon step_distance s).heading end_heading then
      stepTrace g end_lat end_lon step_distance s
    else
      segLoop g end_lat end_lon end_heading step_distance fuel
        (stepTrace g end_lat end_lon step_distance s)

/-- Line 17: n_points = max(1, int(total_distance / POINT_INTERVAL_METERS)). -/
def nPoints (total_distance : ℚ) : ℕ :=
  (max 1 (pyInt (total_distance / POINT_INTERVAL_METERS))).toNat

/-- Full trace of calculate_path_segment (lines 12-39). -/
def calcSegTrace (g : Geodesic)
    (start_lat start_lon start_heading end_lat end_lon end_heading : ℚ) : SegTrace :=
  let total_distance := (g.Inverse start_lat start_lon end_lat end_lon).s12
  let n_points := nPoints total_distance
  let step_distance := total_distance / (2 * (n_points : ℚ))
  segLoop g end_lat end_lon end_heading step_distance n_points
    ⟨[start_lat], [start_lon], start_heading, [], []⟩

/-- calculate_path_segment (lines 12-39): returns the latitude and
longitude lists of the trace. -/
def calculate_path_segment (g : Geodesic)
    (start_lat start_lon start_heading end_lat end_lon end_heading : ℚ) :
    List ℚ × List ℚ :=
  ((calcSegTrace g start_lat start_lon start_heading end_lat end_lon end_heading).lats,
   (calcSegTrace g start_lat start_lon start_heading end_lat end_lon end_heading).lons)

/-- Lines 46-47: Phase 1, from the start point toward the end point. -/
def phase1 (g : Geodesic) (slat slon sh elat elon eh : ℚ) : List ℚ × List ℚ :=
  calculate_path_segment g slat slon sh elat elon eh

/-- Lines 50-51: Phase 2, from the end point with reversed end heading
back toward the last point of Phase 1. -/
def phase2 (g : Geodesic) (slat slon sh elat elon eh : ℚ) : List ℚ × List ℚ :=
  let p1 := phase1 g slat slon sh elat elon eh
  calculate_path_segment g elat elon (pymod (eh + 180) 360) p1.1.getLast! p1.2.getLast! eh

/-- Line 53: junction latitude, phase_2_lats[-1] if LAT_B == phase_2_lats[0]
else phase_2_lats[0]; the comparison is against the module constant LAT_B. -/
def endOfPhase2Lat (g : Geodesic) (slat slon sh elat elon eh : ℚ) : ℚ :=
  let p2 := phase2 g slat slon sh elat elon eh
  if LAT_B = p2.1.head! then p2.1.getLast! else p2.1.head!

/-- Line 54: junction longitude, phase_2_lons[-1] if LON_B == phase_2_lons[0]
else phase_2_lons[0]; the comparison is against the module constant LON_B. -/
def endOfPhase2Lon (g : Geodesic) (slat slon sh elat elon eh : ℚ) : ℚ :=
  let p2 := phase2 g slat slon sh elat elon eh
  if LON_B = p2.2.head! then p2.2.getLast! else p2.2.head!

/-- Lines 58-59: recalculated Phase 1, targeting the junction point. -/
def phase1R (g : Geodesic) (slat slon sh elat elon eh : ℚ) : List ℚ × List ℚ :=
  calculate_path_segment g slat slon sh
    (endOfPhase2Lat g slat slon sh elat elon eh)
    (endOfPhase2Lon g slat slon sh elat elon eh) eh

/-- Lines 62-63: recalculated Phase 2, from the end point back toward the
last point of the recalculated Phase 1. -/
def phase2R (g : Geodesic) (slat slon sh elat elon eh : ℚ) : List ℚ × List ℚ :=
  let p1r := phase1R g slat slon sh elat elon eh
  calculate_path_segment g elat elon (pymod (eh + 180) 360)
    p1r.1.getLast! p1r.2.getLast! eh

/-- generate_complete_path (lines 41-69): recalculated Phase 1 followed by
the recalculated Phase 2 reversed. -/
def generate_complete_path (g : Geodesic) (slat slon sh elat elon eh : ℚ) :
    List ℚ × List ℚ :=
  ((phase1R g slat slon sh elat elon eh).1 ++ (phase2R g slat slon sh elat elon eh).1.reverse,
   (phase1R g slat slon sh elat elon eh).2 ++ (phase2R g slat slon sh elat elon eh).2.reverse)

/-- Test oracle for concrete evaluations: constant distance 300, constant
bearing 0, Direct moves one degree of latitude north. -/
def stepOracle : Geodesic :=
  ⟨fun _ _ _ _ => ⟨300, 0⟩, fun lat lon _ _ => (lat + 1, lon)⟩

/-- Test oracle reporting zero distance everywhere and a Direct operation
that does not move; models the oracle at coincident endpoints. -/
def zeroOracle : Geodesic :=
  ⟨fun _ _ _ _ => ⟨0, 0⟩, fun lat lon _ _ => (lat, lon)⟩

/-- Test oracle with constant bearing 180, used to reach the boundary value
of the heading normalization. -/
def southOracle : Geodesic :=
  ⟨fun _ _ _ _ => ⟨300, 180⟩, fun lat lon _ _ => (lat - 1, lon)⟩

/-- Test oracle with constant bearing 10, used to push a heading past 360. -/
def bearingTenOracle : Geodesic :=
  ⟨fun _ _ _ _ => ⟨300, 10⟩, fun lat lon _ _ => (lat + 1, lon)⟩

/-- Evaluation helper: last element of a one-element list. -/
@[simp] lemma getLast_bang_one (a : ℚ) : List.getLast! [a] = a := rfl

/-- Evaluation helper: last element of a two-element list. -/
@[simp] lemma getLast_bang_two (a b : ℚ) : List.getLast! [a, b] = b := rfl

/-- Evaluation helper: first element of a two-element list. -/
@[simp] lemma head_bang_two (a b : ℚ) : List.head! [a, b] = a := rfl

/-- Evaluation helper: first element of a cons cell. -/
@[simp] lemma head_bang_cons (a : ℚ) (l : List ℚ) : (a :: l).head! = a := rfl

/-- The Python modulus with a positive divisor is nonnegative. -/
lemma pymod_nonneg (a b : ℚ) (hb : 0 < b) : 0 ≤ pymod a b := by
  unfold pymod
  have h1 : ((⌊a / b⌋ : ℚ)) ≤ a / b := Int.floor_le _
  have h2 : b * ((⌊a / b⌋ : ℚ)) ≤ b * (a / b) := mul_le_mul_of_nonneg_left h1 hb.le
  have h3 : b * (a / b) = a := by field_simp
  linarith

/-- The Python modulus with a positive divisor is below the divisor. -/
lemma pymod_lt (a b : ℚ) (hb : 0 < b) : pymod a b < b := by
  unfold pymod
  have h1 : a / b < (⌊a / b⌋ : ℚ) + 1 := Int.lt_floor_add_one _
  have h2 : b * (a / b) < b * ((⌊a / b⌋ : ℚ) + 1) := by
    exact mul_lt_mul_of_pos_left h1 hb
  have h3 : b * (a / b) = a := by field_simp
  nlinarith

/-- The normalized angular difference of line 27 is at least -180. -/
lemma headingChange_lb (t h : ℚ) : -180 ≤ headingChange t h := by
  unfold headingChange
  have := pymod_nonneg (t - h + 180) 360 (by norm_num)
  linarith

/-- The normalized angular difference of line 27 is strictly below 180. -/
lemma headingChange_ub (t h : ℚ) : headingChange t h < 180 := by
  unfold headingChange
  have := pymod_lt (t - h + 180) 360 (by norm_num)
  linarith

/-- The normalized angular difference of line 27 is congruent to
target - heading modulo 360. -/
lemma headingChange_congruent (t h : ℚ) :
    ∃ k : ℤ, headingChange t h = (t - h) + 360 * k := by
  refine ⟨-⌊(t - h + 180) / 360⌋, ?_⟩
  unfold headingChange pymod
  push_cast
  ring

/-- The heading update of line 28 moves the heading by at most
MAX_TURN_RATE in absolute value. -/
lemma abs_turnStep (h c : ℚ) : |headingUpdate h c - h| ≤ MAX_TURN_RATE := by
  have hmin0 : (0 : ℚ) ≤ min MAX_TURN_RATE |c| :=
    le_min (by norm_num [MAX_TURN_RATE]) (abs_nonneg c)
  have hmin3 : min MAX_TURN_RATE |c| ≤ MAX_TURN_RATE := min_le_left _ _
  unfold headingUpdate npSign
  split_ifs with h1 h2
  · rw [mul_one, add_sub_cancel_left, abs_of_nonneg hmin0]; exact hmin3
  · rw [mul_neg_one, add_sub_cancel_left, abs_neg, abs_of_nonneg hmin0]; exact hmin3
  · rw [mul_zero, add_sub_cancel_left, abs_zero]; norm_num [MAX_TURN_RATE]

/-- The loop always has at least one iteration to run. -/
lemma nPoints_pos (d : ℚ) : 1 ≤ nPoints d := by
  unfold nPoints
  have h : (1 : ℤ) ≤ max 1 (pyInt (d / POINT_INTERVAL_METERS)) := le_max_left _ _
  omega

/-- The step-count expression of line 17, written with truncation toward
zero, agrees with the floor-based formula of the specification. -/
lemma nPoints_eq_floor (d : ℚ) :
    nPoints d = (max 1 ⌊d / POINT_INTERVAL_METERS⌋).toNat := by
  unfold nPoints pyInt
  split_ifs with h
  · rfl
  · push_neg at h
    have h1 : ⌊d / POINT_INTERVAL_METERS⌋ ≤ 0 :=
      Int.floor_nonpos h.le
    have h2 : (0 : ℤ) ≤ ⌊-(d / POINT_INTERVAL_METERS)⌋ :=
      Int.le_floor.mpr (by push_cast; linarith)
    rw [max_eq_left (by omega), max_eq_left (by omega)]

/-- A heading chain whose links are bounded by MAX_TURN_RATE drifts from
its starting value by at most MAX_TURN_RATE per element. -/
lemma chain_drift :
    ∀ (us : List ℚ) (h0 : ℚ),
      List.Chain (fun a b => |b - a| ≤ MAX_TURN_RATE) h0 us →
      ∀ (i : ℕ) (x : ℚ), us.get? i = some x →
        |x - h0| ≤ MAX_TURN_RATE * ((i : ℚ) + 1) := by
  intro us
  induction us with
  | nil => intro h0 _ i x hx; simp at hx
  | cons b tl ih =>
    intro h0 hch i x hx
    obtain ⟨hb, htail⟩ := List.chain_cons.mp hch
    cases i with
    | zero =>
      simp at hx
      subst hx
      norm_num [MAX_TURN_RATE] at hb ⊢
      linarith
    | succ n =>
      have hrec := ih b htail n x (by simpa using hx)
      have tri := abs_sub_le x b h0
      norm_num [MAX_TURN_RATE] at hb hrec ⊢
      linarith

/-- Shape of one loop pass: the step appends exactly one latitude, one
longitude, one heading change and one used heading, and the applied
change is a normalized angular difference toward some target. -/
lemma stepTrace_shape (g : Geodesic) (elat elon sd : ℚ) (s : SegTrace) :
    ∃ la lo t : ℚ,
      stepTrace g elat elon sd s =
        ⟨s.lats ++ [la], s.lons ++ [lo],
         headingUpdate s.heading (headingChange t s.heading),
         s.deltas ++ [headingChange t s.heading],
         s.used ++ [headingUpdate s.heading (headingChange t s.heading)]⟩ :=
  ⟨(g.Direct s.lats.getLast! s.lons.getLast!
      (headingUpdate s.heading
        (headingChange ((g.Inverse s.lats.getLast! s.lons.getLast! elat elon).azi1)
          s.heading)) sd).1,
   (g.Direct s.lats.getLast! s.lons.getLast!
      (headingUpdate s.heading
        (headingChange ((g.Inverse s.lats.getLast! s.lons.getLast! elat elon).azi1)
          s.heading)) sd).2,
   (g.Inverse s.lats.getLast! s.lons.getLast! elat elon).azi1, rfl⟩

/-- Structure of a full loop run: relative to the incoming state, the loop
only appends; it appends equally many latitudes and longitudes, at most
one per iteration and at least one when an iteration is available; the
used headings form a chain of steps bounded by MAX_TURN_RATE starting at
the incoming heading, and every recorded heading change is a normalized
angular difference toward some target. -/
lemma segLoop_fields (g : Geodesic) (elat elon eh sd : ℚ) :
    ∀ (fuel : ℕ) (s : SegTrace),
      ∃ el eo ed eu : List ℚ,
        (segLoop g elat elon eh sd fuel s).lats = s.lats ++ el ∧
        (segLoop g elat elon eh sd fuel s).lons = s.lons ++ eo ∧
        (segLoop g elat elon eh sd fuel s).deltas = s.deltas ++ ed ∧
        (segLoop g elat elon eh sd fuel s).used = s.used ++ eu ∧
        el.length = eo.length ∧ el.length ≤ fuel ∧ (1 ≤ fuel → 1 ≤ el.length) ∧
        List.Chain (fun a b => |b - a| ≤ MAX_TURN_RATE) s.heading eu ∧
        ∀ d ∈ ed, ∃ t h : ℚ, d = headingChange t h := by
  intro fuel
  induction fuel with
  | zero =>
    intro s
    exact ⟨[], [], [], [], by simp [segLoop], by simp [segLoop], by simp [segLoop],
      by simp [segLoop], rfl, le_refl 0, by omega, List.Chain.nil, by simp⟩
  | succ n ih =>
    intro s
    obtain ⟨la, lo, t, hstep⟩ := stepTrace_shape g elat elon sd s
    rw [segLoop, hstep]
    by_cases hstop :
        earlyStop
          (SegTrace.mk (s.lats ++ [la]) (s.lons ++ [lo])
            (headingUpdate s.heading (headingChange t s.heading))
            (s.deltas ++ [headingChange t s.heading])
            (s.used ++ [headingUpdate s.heading (headingChange t s.heading)])).heading eh
    · rw [if_pos hstop]
      refine ⟨[la], [lo], [headingChange t s.heading],
        [headingUpdate s.heading (headingChange t s.heading)],
        rfl, rfl, rfl, rfl, rfl, by simp only [List.length_singleton]; omega,
        fun _ => by simp, ?_, ?_⟩
      · exact List.Chain.cons (abs_turnStep s.heading (headingChange t s.heading))
          List.Chain.nil
      · intro d hd
        simp at hd
        exact ⟨t, s.heading, hd⟩
    · rw [if_neg hstop]
      obtain ⟨el, eo, ed, eu, hlats, hlons, hdeltas, hused, hlen, hle, _, hch, hcd⟩ :=
        ih (SegTrace.mk (s.lats ++ [la]) (s.lons ++ [lo])
            (headingUpdate s.heading (headingChange t s.heading))
            (s.deltas ++ [headingChange t s.heading])
            (s.used ++ [headingUpdate s.heading (headingChange t s.heading)]))
      refine ⟨la :: el, lo :: eo, headingChange t s.heading :: ed,
        headingUpdate s.heading (headingChange t s.heading) :: eu, ?_, ?_, ?_, ?_,
        ?_, ?_, ?_, ?_, ?_⟩
      · rw [hlats]; simp
      · rw [hlons]; simp
      · rw [hdeltas]; simp
      · rw [hused]; simp
      · simp [hlen]
      · simp only [List.length_cons]; omega
      · intro _; simp
      · exact List.Chain.cons (abs_turnStep s.heading (headingChange t s.heading)) hch
      · intro d hd
        rcases List.mem_cons.mp hd with h | h
        · exact ⟨t, s.heading, h⟩
        · exact hcd d h

/-- Shape of a generated segment: the latitude list starts with the start
latitude and the longitude list with the start longitude; past the first
entry the two lists have the same length, at least 1 and at most the step
budget computed from the oracle distance at segment start. -/
lemma calcSegTrace_shape (g : Geodesic) (slat slon sh elat elon eh : ℚ) :
    ∃ tl tlon : List ℚ,
      (calcSegTrace g slat slon sh elat elon eh).lats = slat :: tl ∧
      (calcSegTrace g slat slon sh elat elon eh).lons = slon :: tlon ∧
      tl.length = tlon.length ∧ 1 ≤ tl.length ∧
      tl.length ≤ nPoints ((g.Inverse slat slon elat elon).s12) := by
  obtain ⟨el, eo, ed, eu, hlats, hlons, _, _, hlen, hle, hone, _, _⟩ :=
    segLoop_fields g elat elon eh
      ((g.Inverse slat slon elat elon).s12 /
        (2 * (nPoints ((g.Inverse slat slon elat elon).s12) : ℚ)))
      (nPoints ((g.Inverse slat slon elat elon).s12))
      ⟨[slat], [slon], sh, [], []⟩
  exact ⟨el, eo, by simpa [calcSegTrace] using hlats, by simpa [calcSegTrace] using hlons,
    hlen, hone (nPoints_pos _), hle⟩

/-- The headings passed to the Direct operation along a segment form a
chain starting at the start heading whose links are bounded by
MAX_TURN_RATE. -/
lemma calcSegTrace_chain (g : Geodesic) (slat slon sh elat elon eh : ℚ) :
    List.Chain (fun a b => |b - a| ≤ MAX_TURN_RATE) sh
      (calcSegTrace g slat slon sh elat elon eh).used := by
  obtain ⟨el, eo, ed, eu, _, _, _, hused, _, _, _, hch, _⟩ :=
    segLoop_fields g elat elon eh
      ((g.Inverse slat slon elat elon).s12 /
        (2 * (nPoints ((g.Inverse slat slon elat elon).s12) : ℚ)))
      (nPoints ((g.Inverse slat slon elat elon).s12))
      ⟨[slat], [slon], sh, [], []⟩
  have h : (calcSegTrace g slat slon sh elat elon eh).used = eu := by
    simpa [calcSegTrace] using hused
  rw [h]
  exact hch

/-- Every heading change recorded along a segment is a normalized angular
difference toward some target heading. -/
lemma calcSegTrace_deltas (g : Geodesic) (slat slon sh elat elon eh : ℚ) :
    ∀ d ∈ (calcSegTrace g slat slon sh elat elon eh).deltas,
      ∃ t h : ℚ, d = headingChange t h := by
  obtain ⟨el, eo, ed, eu, _, _, hdeltas, _, _, _, _, _, hcd⟩ :=
    segLoop_fields g elat elon eh
      ((g.Inverse slat slon elat elon).s12 /
        (2 * (nPoints ((g.Inverse slat slon elat elon).s12) : ℚ)))
      (nPoints ((g.Inverse slat slon elat elon).s12))
      ⟨[slat], [slon], sh, [], []⟩
  have h : (calcSegTrace g slat slon sh elat elon eh).deltas = ed := by
    simpa [calcSegTrace] using hdeltas
  rw [h]
  exact hcd

/-- Concrete run: one-step segment under the unit-step oracle. -/
lemma stepSeg_eval : calcSegTrace stepOracle 0 0 0 10 10 0 = ⟨[0, 1], [0, 0], 0, [0], [0]⟩ := by
  norm_num [calcSegTrace, nPoints, pyInt, POINT_INTERVAL_METERS, MAX_TURN_RATE, segLoop,
    stepTrace, stepOracle, headingChange, headingUpdate, npSign, pymod, earlyStop]

/-- Concrete run: Phase 2 of the unit-step oracle scenario, grown from the
passed end point (10, 10) with reversed heading. -/
lemma stepPhase2_eval : phase2 stepOracle 0 0 0 10 10 0 = ([10, 11], [10, 10]) := by
  norm_num [phase2, phase1, calculate_path_segment, calcSegTrace, nPoints, pyInt,
    POINT_INTERVAL_METERS, MAX_TURN_RATE, segLoop, stepTrace, stepOracle, headingChange,
    headingUpdate, npSign, pymod, earlyStop]

/-- Concrete run: the junction latitude selected at line 53 in the
unit-step oracle scenario is 10, the latitude of the passed end point. -/
lemma stepJunctionLat_eval : endOfPhase2Lat stepOracle 0 0 0 10 10 0 = 10 := by
  norm_num [endOfPhase2Lat, phase2, phase1, calculate_path_segment, calcSegTrace, nPoints,
    pyInt, POINT_INTERVAL_METERS, MAX_TURN_RATE, segLoop, stepTrace, stepOracle,
    headingChange, headingUpdate, npSign, pymod, earlyStop, LAT_B]

/-- Concrete run: the junction longitude selected at line 54 in the
unit-step oracle scenario is 10, the longitude of the passed end point. -/
lemma stepJunctionLon_eval : endOfPhase2Lon stepOracle 0 0 0 10 10 0 = 10 := by
  norm_num [endOfPhase2Lon, phase2, phase1, calculate_path_segment, calcSegTrace, nPoints,
    pyInt, POINT_INTERVAL_METERS, MAX_TURN_RATE, segLoop, stepTrace, stepOracle,
    headingChange, headingUpdate, npSign, pymod, earlyStop, LON_B]

/-- Concrete run: recalculated Phase 1 in the unit-step oracle scenario. -/
lemma stepP1R_eval : phase1R stepOracle 0 0 0 10 10 0 = ([0, 1], [0, 0]) := by
  norm_num [phase1R, endOfPhase2Lat, endOfPhase2Lon, phase2, phase1, calculate_path_segment,
    calcSegTrace, nPoints, pyInt, POINT_INTERVAL_METERS, MAX_TURN_RATE, segLoop, stepTrace,
    stepOracle, headingChange, headingUpdate, npSign, pymod, earlyStop, LAT_B, LON_B]

/-- Concrete run: recalculated Phase 2 in the unit-step oracle scenario. -/
lemma stepP2R_eval : phase2R stepOracle 0 0 0 10 10 0 = ([10, 11], [10, 10]) := by
  norm_num [phase2R, phase1R, endOfPhase2Lat, endOfPhase2Lon, phase2, phase1,
    calculate_path_segment, calcSegTrace, nPoints, pyInt, POINT_INTERVAL_METERS,
    MAX_TURN_RATE, segLoop, stepTrace, stepOracle, headingChange, headingUpdate, npSign,
    pymod, earlyStop, LAT_B, LON_B]

/-- Concrete run: the full path in the unit-step oracle scenario. -/
lemma stepFull_eval :
    generate_complete_path stepOracle 0 0 0 10 10 0 = ([0, 1, 11, 10], [0, 0, 10, 10]) := by
  norm_num [generate_complete_path, phase2R, phase1R, endOfPhase2Lat, endOfPhase2Lon,
    phase2, phase1, calculate_path_segment, calcSegTrace, nPoints, pyInt,
    POINT_INTERVAL_METERS, MAX_TURN_RATE, segLoop, stepTrace, stepOracle, headingChange,
    headingUpdate, npSign, pymod, earlyStop, LAT_B, LON_B]

/-- Concrete run: the full path returned for coincident endpoints under the
zero-distance oracle has four entries, all at the shared point. -/
lemma zeroFull_eval :
    generate_complete_path zeroOracle 5 5 0 5 5 0 = ([5, 5, 5, 5], [5, 5, 5, 5]) := by
  norm_num [generate_complete_path, phase2R, phase1R, endOfPhase2Lat, endOfPhase2Lon,
    phase2, phase1, calculate_path_segment, calcSegTrace, nPoints, pyInt,
    POINT_INTERVAL_METERS, MAX_TURN_RATE, segLoop, stepTrace, zeroOracle, headingChange,
    headingUpdate, npSign, pymod, earlyStop, LAT_B, LON_B]

/-- Concrete run: with the target bearing directly opposite the running
heading, line 27 computes the heading change -180. -/
lemma southTrace_deltas : (calcSegTrace southOracle 0 0 0 10 10 90).deltas = [-180] := by
  norm_num [calcSegTrace, nPoints, pyInt, POINT_INTERVAL_METERS, MAX_TURN_RATE, segLoop,
    stepTrace, southOracle, headingChange, headingUpdate, npSign, pymod, earlyStop]

/-- Concrete run: starting at heading 359 with target bearing 10, the
heading passed to the Direct call is 362, outside [0, 360). -/
lemma tenTrace_used : (calcSegTrace bearingTenOracle 0 0 359 10 10 0).used = [362] := by
  norm_num [calcSegTrace, nPoints, pyInt, POINT_INTERVAL_METERS, MAX_TURN_RATE, segLoop,
    stepTrace, bearingTenOracle, headingChange, headingUpdate, npSign, pymod, earlyStop]

/-- The recalculated Phase 1 lists start at the start point. -/
lemma phase1R_shape (g : Geodesic) (slat slon sh elat elon eh : ℚ) :
    ∃ tl tlon : List ℚ,
      (phase1R g slat slon sh elat elon eh).1 = slat :: tl ∧
      (phase1R g slat slon sh elat elon eh).2 = slon :: tlon := by
  obtain ⟨tl, tlon, h1, h2, -, -, -⟩ :=
    calcSegTrace_shape g slat slon sh
      (endOfPhase2Lat g slat slon sh elat elon eh)
      (endOfPhase2Lon g slat slon sh elat elon eh) eh
  exact ⟨tl, tlon, h1, h2⟩

/-- The recalculated Phase 2 lists start at the end point passed to
generate_complete_path. -/
lemma phase2R_shape (g : Geodesic) (slat slon sh elat elon eh : ℚ) :
    ∃ tl tlon : List ℚ,
      (phase2R g slat slon sh elat elon eh).1 = elat :: tl ∧
      (phase2R g slat slon sh elat elon eh).2 = elon :: tlon := by
  obtain ⟨tl, tlon, h1, h2, -, -, -⟩ :=
    calcSegTrace_shape g elat elon (pymod (eh + 180) 360)
      (phase1R g slat slon sh elat elon eh).1.getLast!
      (phase1R g slat slon sh elat elon eh).2.getLast! eh
  exact ⟨tl, tlon, h1, h2⟩

/-- C1: for every oracle and every input with A distinct from B, the path
returned by generate_complete_path starts exactly at A (its first
latitude/longitude pair equals A) and ends exactly at B (its last
latitude/longitude pair equals B). -/
theorem C1_endpoint_fidelity (g : Geodesic) (slat slon sh elat elon eh : ℚ)
    (_hAB : (slat, slon) ≠ (elat, elon)) :
    (generate_complete_path g slat slon sh elat elon eh).1.head? = some slat ∧
    (generate_complete_path g slat slon sh elat elon eh).2.head? = some slon ∧
    (generate_complete_path g slat slon sh elat elon eh).1.getLast? = some elat ∧
    (generate_complete_path g slat slon sh elat elon eh).2.getLast? = some elon := by
  obtain ⟨tl1, to1, h1a, h1b⟩ := phase1R_shape g slat slon sh elat elon eh
  obtain ⟨tl2, to2, h2a, h2b⟩ := phase2R_shape g slat slon sh elat elon eh
  unfold generate_complete_path
  rw [h1a, h1b, h2a, h2b]
  refine ⟨by simp, by simp, ?_, ?_⟩
  · rw [List.getLast?_append, List.getLast?_reverse]
    rfl
  · rw [List.getLast?_append, List.getLast?_reverse]
    rfl

/-- C1 witness at a concrete input. -/
theorem C1_endpoint_fidelity_witness :
    ((0 : ℚ), (0 : ℚ)) ≠ ((10 : ℚ), (10 : ℚ)) ∧
    ((generate_complete_path stepOracle 0 0 0 10 10 0).1.head? = some 0 ∧
     (generate_complete_path stepOracle 0 0 0 10 10 0).2.head? = some 0 ∧
     (generate_complete_path stepOracle 0 0 0 10 10 0).1.getLast? = some 10 ∧
     (generate_complete_path stepOracle 0 0 0 10 10 0).2.getLast? = some 10) :=
  ⟨by norm_num [Prod.ext_iff],
   C1_endpoint_fidelity stepOracle 0 0 0 10 10 0 (by norm_num [Prod.ext_iff])⟩

/-- C4: along any segment the heading changes applied at consecutive steps,
starting from the start heading, are bounded by MAX_TURN_RATE in absolute
value. -/
theorem C4_turn_rate_bound (g : Geodesic) (slat slon sh elat elon eh : ℚ) :
    List.Chain (fun a b => |b - a| ≤ MAX_TURN_RATE) sh
      (calcSegTrace g slat slon sh elat elon eh).used :=
  calcSegTrace_chain g slat slon sh elat elon eh

/-- C6 (amended): every heading change computed at line 27 during a run of
calculate_path_segment lies in the half-open interval from -180 inclusive
to 180 exclusive, and is congruent to (target heading - running heading)
modulo 360. -/
theorem C6_heading_change_range (g : Geodesic) (slat slon sh elat elon eh : ℚ) :
    ∀ d ∈ (calcSegTrace g slat slon sh elat elon eh).deltas,
      (-180 ≤ d ∧ d < 180) ∧
      ∃ t h : ℚ, d = headingChange t h ∧ ∃ k : ℤ, d = (t - h) + 360 * k := by
  intro d hd
  obtain ⟨t, h, rfl⟩ := calcSegTrace_deltas g slat slon sh elat elon eh d hd
  exact ⟨⟨headingChange_lb t h, headingChange_ub t h⟩, t, h, rfl,
    headingChange_congruent t h⟩

/-- C6 witness: the boundary value -180 is attained at a concrete step. -/
theorem C6_heading_change_range_witness :
    (-180 : ℚ) ∈ (calcSegTrace southOracle 0 0 0 10 10 90).deltas ∧
    (((-180 : ℚ) ≥ -180 ∧ (-180 : ℚ) < 180) ∧
      ∃ t h : ℚ, (-180 : ℚ) = headingChange t h ∧
        ∃ k : ℤ, (-180 : ℚ) = (t - h) + 360 * k) := by
  have hm : (-180 : ℚ) ∈ (calcSegTrace southOracle 0 0 0 10 10 90).deltas := by
    rw [southTrace_deltas]; exact List.mem_singleton.mpr rfl
  have h := C6_heading_change_range southOracle 0 0 0 10 10 90 (-180) hm
  exact ⟨hm, ⟨⟨h.1.1, h.1.2⟩, h.2⟩⟩

/-- C7: a segment of calculate_path_segment has at most n+1 points in each
coordinate list, where n is the step budget of line 17 computed from the
oracle distance at segment start, and that budget agrees with the formula
max(1, floor(distance / POINT_INTERVAL_METERS)). -/
theorem C7_step_count_bound (g : Geodesic) (slat slon sh elat elon eh : ℚ) :
    (calculate_path_segment g slat slon sh elat elon eh).1.length ≤
      nPoints ((g.Inverse slat slon elat elon).s12) + 1 ∧
    (calculate_path_segment g slat slon sh elat elon eh).2.length ≤
      nPoints ((g.Inverse slat slon elat elon).s12) + 1 ∧
    ∀ d : ℚ, nPoints d = (max 1 ⌊d / POINT_INTERVAL_METERS⌋).toNat := by
  obtain ⟨tl, tlon, hlat, hlon, hlen, hone, hle⟩ :=
    calcSegTrace_shape g slat slon sh elat elon eh
  refine ⟨?_, ?_, nPoints_eq_floor⟩
  · simp only [calculate_path_segment]
    rw [hlat]
    simp only [List.length_cons]
    omega
  · simp only [calculate_path_segment]
    rw [hlon]
    simp only [List.length_cons]
    omega

/-- C8 (amended): the headings passed to the oracle Direct operation are
not normalized; the heading used at step i is the raw running heading,
within MAX_TURN_RATE times (i+1) of the start heading. -/
theorem C8_direct_heading_drift (g : Geodesic) (slat slon sh elat elon eh : ℚ)
    (i : ℕ) (h : ℚ)
    (hget : (calcSegTrace g slat slon sh elat elon eh).used.get? i = some h) :
    |h - sh| ≤ MAX_TURN_RATE * ((i : ℚ) + 1) :=
  chain_drift _ sh (calcSegTrace_chain g slat slon sh elat elon eh) i h hget

/-- C8 witness at a concrete step. -/
theorem C8_direct_heading_drift_witness :
    (calcSegTrace bearingTenOracle 0 0 359 10 10 0).used.get? 0 = some 362 ∧
    |(362 : ℚ) - 359| ≤ MAX_TURN_RATE * (((0 : ℕ) : ℚ) + 1) := by
  have hg : (calcSegTrace bearingTenOracle 0 0 359 10 10 0).used.get? 0 = some 362 := by
    rw [tenTrace_used]
    rfl
  exact ⟨hg, C8_direct_heading_drift bearingTenOracle 0 0 359 10 10 0 0 362 hg⟩

/-- C9: every segment returned by calculate_path_segment contains at least
two points in each coordinate list: the start point plus at least one
stepped point. -/
theorem C9_at_least_two_points (g : Geodesic) (slat slon sh elat elon eh : ℚ) :
    2 ≤ (calculate_path_segment g slat slon sh elat elon eh).1.length ∧
    2 ≤ (calculate_path_segment g slat slon sh elat elon eh).2.length := by
  obtain ⟨tl, tlon, hlat, hlon, hlen, hone, hle⟩ :=
    calcSegTrace_shape g slat slon sh elat elon eh
  constructor
  · simp only [calculate_path_segment]
    rw [hlat]
    simp only [List.length_cons]
    omega
  · simp only [calculate_path_segment]
    rw [hlon]
    simp only [List.length_cons]
    omega

/-- C10: the early-termination test of line 36 compares raw numeric heading
values: headings that differ from the end heading by a nonzero multiple of
360 degrees never satisfy it. -/
theorem C10_raw_heading_test (h e : ℚ) (k : ℤ) (hk : k ≠ 0)
    (hdiff : h - e = 360 * (k : ℚ)) : ¬ earlyStop h e := by
  unfold earlyStop
  rw [hdiff]
  have h1 : (1 : ℤ) ≤ |k| := Int.one_le_abs hk
  have h2 : (1 : ℚ) ≤ |(k : ℚ)| := by
    rw [← Int.cast_abs]
    exact_mod_cast h1
  rw [abs_mul, abs_of_pos (by norm_num : (0 : ℚ) < 360)]
  intro hcon
  nlinarith

/-- C10 witness: a heading exactly 360 degrees away from the end heading
does not trigger the early stop. -/
theorem C10_raw_heading_test_witness :
    (1 : ℤ) ≠ 0 ∧ (360 : ℚ) - 0 = 360 * ((1 : ℤ) : ℚ) ∧ ¬ earlyStop 360 0 :=
  ⟨by decide, by norm_num, C10_raw_heading_test 360 0 1 (by decide) (by norm_num)⟩

/-- C2 counterexample: calling generate_complete_path with an end point
whose coordinates differ from the module constants LAT_B, LON_B, the
junction substituted as the Pass-2 target is the endpoint of P2 that IS
coincident with the passed end point B = (10, 10) (P2's first point),
not the far endpoint (latitude 11). -/
theorem C2_junction_counterexample :
    (phase2 stepOracle 0 0 0 10 10 0).1.head? = some 10 ∧
    (phase2 stepOracle 0 0 0 10 10 0).1.getLast? = some 11 ∧
    endOfPhase2Lat stepOracle 0 0 0 10 10 0 = 10 ∧
    endOfPhase2Lon stepOracle 0 0 0 10 10 0 = 10 ∧
    (10 : ℚ) ≠ 11 := by
  rw [stepPhase2_eval]
  exact ⟨rfl, rfl, stepJunctionLat_eval, stepJunctionLon_eval, by norm_num⟩

/-- C2 (amended): the junction point substituted as the Pass-2 target is
selected by comparing P2's first point against the module-level constants
LAT_B and LON_B, coordinate by coordinate, not against the end point
passed to the invocation; when the passed end point equals (LAT_B, LON_B)
(as in every call the script makes), the selected junction is P2's last
point, the endpoint away from B. -/
theorem C2_junction_from_far_end (g : Geodesic) (slat slon sh elat elon eh : ℚ)
    (hlat : elat = LAT_B) (hlon : elon = LON_B) :
    endOfPhase2Lat g slat slon sh elat elon eh =
      (phase2 g slat slon sh elat elon eh).1.getLast! ∧
    endOfPhase2Lon g slat slon sh elat elon eh =
      (phase2 g slat slon sh elat elon eh).2.getLast! := by
  obtain ⟨tl2, to2, h2a, h2b, -, -, -⟩ :=
    calcSegTrace_shape g elat elon (pymod (eh + 180) 360)
      (phase1 g slat slon sh elat elon eh).1.getLast!
      (phase1 g slat slon sh elat elon eh).2.getLast! eh
  have hp2a : (phase2 g slat slon sh elat elon eh).1 = elat :: tl2 := h2a
  have hp2b : (phase2 g slat slon sh elat elon eh).2 = elon :: to2 := h2b
  constructor
  · simp only [endOfPhase2Lat]
    rw [hp2a, head_bang_cons, if_pos hlat.symm]
  · simp only [endOfPhase2Lon]
    rw [hp2b, head_bang_cons, if_pos hlon.symm]

/-- C2 witness: with the end point equal to the module constants, the
junction is P2's far endpoint. -/
theorem C2_junction_from_far_end_witness :
    (50.02 : ℚ) = LAT_B ∧ (4.93 : ℚ) = LON_B ∧
    (endOfPhase2Lat stepOracle 0 0 0 50.02 4.93 0 =
      (phase2 stepOracle 0 0 0 50.02 4.93 0).1.getLast! ∧
     endOfPhase2Lon stepOracle 0 0 0 50.02 4.93 0 =
      (phase2 stepOracle 0 0 0 50.02 4.93 0).2.getLast!) :=
  ⟨rfl, rfl, C2_junction_from_far_end stepOracle 0 0 0 50.02 4.93 0 rfl rfl⟩

/-- C3 counterexample: with coincident endpoints A = B = (5, 5) and an
oracle reporting zero distance, generate_complete_path returns a path of
four list entries, not a single-point path. -/
theorem C3_degenerate_counterexample :
    generate_complete_path zeroOracle 5 5 0 5 5 0 = ([5, 5, 5, 5], [5, 5, 5, 5]) ∧
    (generate_complete_path zeroOracle 5 5 0 5 5 0).1.length ≠ 1 := by
  refine ⟨zeroFull_eval, ?_⟩
  rw [zeroFull_eval]
  norm_num

/-- Step budget of a zero-length segment. -/
lemma nPoints_zero : nPoints 0 = 1 := by
  norm_num [nPoints, pyInt, POINT_INTERVAL_METERS]

/-- C3 (amended): when the two endpoints coincide and the oracle behaves
like a geodesic library at zero distance (zero inverse distance between a
point and itself, Direct with distance 0 returns its input point),
generate_complete_path terminates without error and returns a path whose
entries all equal A: four list entries at the single physical point. -/
theorem C3_degenerate_path (g : Geodesic) (slat slon sh eh : ℚ)
    (hinv : ∀ lat lon : ℚ, (g.Inverse lat lon lat lon).s12 = 0)
    (hdir : ∀ lat lon h : ℚ, g.Direct lat lon h 0 = (lat, lon)) :
    generate_complete_path g slat slon sh slat slon eh =
      ([slat, slat, slat, slat], [slon, slon, slon, slon]) := by
  have hseg : ∀ hh he : ℚ,
      (calcSegTrace g slat slon hh slat slon he).lats = [slat, slat] ∧
      (calcSegTrace g slat slon hh slat slon he).lons = [slon, slon] := by
    intro hh he
    constructor <;>
      norm_num [calcSegTrace, hinv, nPoints_zero, segLoop, stepTrace, hdir]
  have hp1a : (phase1 g slat slon sh slat slon eh).1 = [slat, slat] := (hseg sh eh).1
  have hp1b : (phase1 g slat slon sh slat slon eh).2 = [slon, slon] := (hseg sh eh).2
  have hp2 : phase2 g slat slon sh slat slon eh = ([slat, slat], [slon, slon]) := by
    simp only [phase2]
    rw [hp1a, hp1b, getLast_bang_two, getLast_bang_two]
    simp only [calculate_path_segment]
    rw [(hseg (pymod (eh + 180) 360) eh).1, (hseg (pymod (eh + 180) 360) eh).2]
  have hjlat : endOfPhase2Lat g slat slon sh slat slon eh = slat := by
    simp only [endOfPhase2Lat]
    rw [hp2]
    simp
  have hjlon : endOfPhase2Lon g slat slon sh slat slon eh = slon := by
    simp only [endOfPhase2Lon]
    rw [hp2]
    simp
  have hp1r : phase1R g slat slon sh slat slon eh = ([slat, slat], [slon, slon]) := by
    simp only [phase1R]
    rw [hjlat, hjlon]
    simp only [calculate_path_segment]
    rw [(hseg sh eh).1, (hseg sh eh).2]
  have hp2r : phase2R g slat slon sh slat slon eh = ([slat, slat], [slon, slon]) := by
    simp only [phase2R]
    rw [hp1r]
    simp only [getLast_bang_two]
    simp only [calculate_path_segment]
    rw [(hseg (pymod (eh + 180) 360) eh).1, (hseg (pymod (eh + 180) 360) eh).2]
  simp only [generate_complete_path]
  rw [hp1r, hp2r]
  simp

/-- C3 witness: the zero-distance oracle satisfies the degenerate-input
hypotheses. -/
theorem C3_degenerate_path_witness :
    (∀ lat lon : ℚ, (zeroOracle.Inverse lat lon lat lon).s12 = 0) ∧
    (∀ lat lon h : ℚ, zeroOracle.Direct lat lon h 0 = (lat, lon)) ∧
    generate_complete_path zeroOracle 5 5 0 5 5 0 =
      ([5, 5, 5, 5], [5, 5, 5, 5]) :=
  ⟨fun _ _ => rfl, fun _ _ _ => rfl,
   C3_degenerate_path zeroOracle 5 5 0 0 (fun _ _ => rfl) (fun _ _ _ => rfl)⟩

/-- C5 counterexample: in a concrete run the last point of the corrected
forward segment is (1, 0) while the first point of the reversed corrected
backward segment is (11, 10): the two are not the same physical point. -/
theorem C5_seam_counterexample :
    (phase1R stepOracle 0 0 0 10 10 0).1.getLast? = some 1 ∧
    (phase1R stepOracle 0 0 0 10 10 0).2.getLast? = some 0 ∧
    (phase2R stepOracle 0 0 0 10 10 0).1.reverse.head? = some 11 ∧
    (phase2R stepOracle 0 0 0 10 10 0).2.reverse.head? = some 10 ∧
    ((1 : ℚ), (0 : ℚ)) ≠ ((11 : ℚ), (10 : ℚ)) := by
  rw [stepP1R_eval, stepP2R_eval]
  exact ⟨rfl, rfl, rfl, rfl, by norm_num [Prod.ext_iff]⟩

/-- Seam of an append: index length-1 reads the left part's last entry. -/
lemma append_seam_left (l1 l2 : List ℚ) (h : l1 ≠ []) :
    (l1 ++ l2)[l1.length - 1]? = l1.getLast? := by
  have hlen : 0 < l1.length := List.length_pos.mpr h
  rw [List.getElem?_append, if_pos (by omega)]
  exact (List.getLast?_eq_getElem? l1).symm

/-- Seam of an append with a reversed right part: index length reads the
right part's last entry. -/
lemma append_seam_right (l1 l2 : List ℚ) :
    (l1 ++ l2.reverse)[l1.length]? = l2.getLast? := by
  rw [List.getElem?_append, if_neg (by omega), Nat.sub_self]
  rw [← List.head?_eq_getElem?, List.head?_reverse]

/-- C5 (amended): the stitched path is the corrected forward segment
followed by the reversed corrected backward segment with no point shared
or merged: the two adjacent entries at the seam are the forward segment's
last point and the backward segment's last point, which in general are
distinct (the junction is approximate). -/
theorem C5_seam_structure (g : Geodesic) (slat slon sh elat elon eh : ℚ) :
    (generate_complete_path g slat slon sh elat elon eh).1[
        (phase1R g slat slon sh elat elon eh).1.length - 1]? =
      (phase1R g slat slon sh elat elon eh).1.getLast? ∧
    (generate_complete_path g slat slon sh elat elon eh).1[
        (phase1R g slat slon sh elat elon eh).1.length]? =
      (phase2R g slat slon sh elat elon eh).1.getLast? ∧
    (generate_complete_path g slat slon sh elat elon eh).2[
        (phase1R g slat slon sh elat elon eh).2.length - 1]? =
      (phase1R g slat slon sh elat elon eh).2.getLast? ∧
    (generate_complete_path g slat slon sh elat elon eh).2[
        (phase1R g slat slon sh elat elon eh).2.length]? =
      (phase2R g slat slon sh elat elon eh).2.getLast? := by
  obtain ⟨tl1, to1, h1a, h1b⟩ := phase1R_shape g slat slon sh elat elon eh
  refine ⟨?_, ?_, ?_, ?_⟩
  · exact append_seam_left _ _ (by rw [h1a]; exact List.cons_ne_nil _ _)
  · exact append_seam_right _ _
  · exact append_seam_left _ _ (by rw [h1b]; exact List.cons_ne_nil _ _)
  · exact append_seam_right _ _

/-- C6 counterexample: at a concrete step of calculate_path_segment the
computed heading change is exactly -180, which lies outside the half-open
interval from -180 exclusive to 180 inclusive claimed by the
specification. -/
theorem C6_boundary_counterexample :
    (calcSegTrace southOracle 0 0 0 10 10 90).deltas = [-180] ∧
    (-180 : ℚ) ∉ Set.Ioc (-180 : ℚ) 180 :=
  ⟨southTrace_deltas, by norm_num⟩

/-- C8 counterexample: at a concrete step of calculate_path_segment the
heading passed to the oracle Direct operation is 362, which lies outside
[0, 360): no normalization is applied before the call. -/
theorem C8_unnormalized_counterexample :
    (calcSegTrace bearingTenOracle 0 0 359 10 10 0).used = [362] ∧
    (362 : ℚ) ∉ Set.Ico (0 : ℚ) 360 :=
  ⟨tenTrace_used, by norm_num⟩
